import Mathlib

/-!
Shallow embedding of `etsy_ads_metrics_harvest.py` (the metric reconciliation
core of the EtsyScraper repository) and proofs about it.

JSON values are modelled by the inductive `Json`; Python floats are modelled by
exact rationals (`Rat`), so all arithmetic is the idealized real arithmetic of
the numbers the program manipulates.  Python dictionaries are modelled as
association lists in insertion order (Python 3.7+ preserves insertion order,
and `json.loads` produces unique keys).  The global `TZ_OFFSET` of the script
is threaded as an explicit `tz : Int` parameter.
-/

set_option autoImplicit false

namespace Harvest

/-- A JSON value as produced by `json.loads`: `null`, booleans, numbers
(ints and floats, both modelled as exact rationals), strings, arrays and
objects.  Objects are association lists in key insertion order. -/
inductive Json where
  | null
  | bool (b : Bool)
  | num (q : Rat)
  | str (s : String)
  | arr (xs : List Json)
  | obj (fields : List (String × Json))

/-- A flat record: one JSON object, as yielded by the tree walker. -/
abbrev RecT := List (String × Json)

/-- One accumulator contribution: (canonical date, metric name, value). -/
abbrev Contrib := String × String × Rat

/-- Canonical remaps (the `REMAP` dict of the source, same entries, same
first-match semantics since the dict has no duplicate keys). -/
def REMAP : List (String × String) :=
  [("impressions", "views"), ("ad_impressions", "views"),
   ("attributed_impressions", "views"), ("impressioncount", "views"),
   ("impression_count", "views"),
   ("clicks", "clicks"), ("click_throughs", "clicks"),
   ("attributed_clicks", "clicks"), ("charged_clicks", "clicks"),
   ("clickcount", "clicks"), ("click_count", "clicks"),
   ("orders", "orders"), ("purchases", "orders"), ("purchasecount", "orders"),
   ("ordercount", "orders"), ("conversions", "orders"),
   ("attributed_orders", "orders"),
   ("revenue", "revenue"), ("sales", "revenue"),
   ("attributed_sales", "revenue"), ("sales_cents", "revenue"),
   ("revenue_cents", "revenue"),
   ("spend", "spend"), ("spend_cents", "spend"), ("cost_cents", "spend"),
   ("spend_micros", "spend"), ("cost_micros", "spend"),
   ("spenttotal", "spend"), ("spendtotal", "spend"), ("spend_total", "spend"),
   ("costtotal", "spend")]

/-- Keys that imply values are in cents even without a `_cents` suffix. -/
def CENTS_LIKE : List String := ["spenttotal", "spendtotal", "spend_total", "costtotal"]

/-- The `DATE_KEYS` set of the source. -/
def DATE_KEYS : List String := ["date", "day", "timestamp"]

/-- The `SKIP_KEYS` set of the source. -/
def SKIP_KEYS : List String :=
  ["id", "listing_id", "campaign_id", "ad_group_id", "shop_id",
   "country", "currency", "__typename"]

/-- Keys that suggest a row is a range-total payload. -/
def RANGE_HINT_KEYS : List String :=
  ["startdate", "enddate", "start_date", "end_date", "from", "to",
   "date_range", "range", "period", "total", "totals", "sum"]

/-- Per-day container keys checked inside `looks_like_range_total`
(the tuple `("days", "daily", "by_day", "series", "data", "datapoints")`). -/
def DAY_CONTAINER_KEYS : List String :=
  ["days", "daily", "by_day", "series", "data", "datapoints"]

/-- Python `str.lower()`.  (Core's `String.toLower` is implemented with a
byte-position loop that the kernel cannot reduce, so the equivalent
character-list map is used; all keys handled here are ASCII.) -/
def lowerStr (s : String) : String := String.mk (s.toList.map Char.toLower)

/-- Python `str.endswith(suffix)`. -/
def endsWithStr (s suf : String) : Bool := suf.toList.isSuffixOf s.toList

/-- Python `s[:-n]` for `n ≤ len(s)`: drop the last `n` characters. -/
def dropRightStr (s : String) (n : Nat) : String :=
  String.mk (s.toList.take (s.toList.length - n))

/-- `looks_like_range_total(d)`: true when the lowercased key set intersects
`RANGE_HINT_KEYS` and contains none of the per-day container keys. -/
def looks_like_range_total (d : RecT) : Bool :=
  let l := d.map (fun kv => lowerStr kv.1)
  if ! l.any (fun k => RANGE_HINT_KEYS.contains k) then false
  else if DAY_CONTAINER_KEYS.any (fun k => l.contains k) then false
  else true

/-! ## Calendar arithmetic

`datetime.fromtimestamp` / `date.isoformat` are modelled with the standard
days-from-civil / civil-from-days conversions on the proleptic Gregorian
calendar, which is exactly the calendar `datetime` implements. -/

/-- Day count since the Unix epoch (1970-01-01) of the civil date `(y, m, d)`. -/
def daysFromCivil (y m d : Int) : Int :=
  let y2 : Int := if m ≤ 2 then y - 1 else y
  let era : Int := (if 0 ≤ y2 then y2 else y2 - 399).tdiv 400
  let yoe : Int := y2 - era * 400
  let mp : Int := if 2 < m then m - 3 else m + 9
  let doy : Int := (153 * mp + 2).tdiv 5 + d - 1
  let doe : Int := yoe * 365 + yoe.tdiv 4 - yoe.tdiv 100 + doy
  era * 146097 + doe - 719468

/-- Civil date `(y, m, d)` of the day `z` (days since the Unix epoch). -/
def civilFromDays (z : Int) : Int × Int × Int :=
  let z2 : Int := z + 719468
  let era : Int := z2.fdiv 146097
  let doe : Int := z2 - era * 146097
  let yoe : Int := (doe - doe.tdiv 1460 + doe.tdiv 36524 - doe.tdiv 146096).tdiv 365
  let y : Int := yoe + era * 400
  let doy : Int := doe - (365 * yoe + yoe.tdiv 4 - yoe.tdiv 100)
  let mp : Int := (5 * doy + 2).tdiv 153
  let d : Int := doy - (153 * mp + 2).tdiv 5 + 1
  let m : Int := if mp < 10 then mp + 3 else mp - 9
  (if m ≤ 2 then y + 1 else y, m, d)

/-- Zero-padded two-digit decimal rendering (`%02d` for values below 100). -/
def pad2 (n : Nat) : List Char := [Nat.digitChar (n / 10 % 10), Nat.digitChar (n % 10)]

/-- Zero-padded four-digit decimal rendering (`%04d` for values below 10000). -/
def pad4 (n : Nat) : List Char :=
  [Nat.digitChar (n / 1000 % 10), Nat.digitChar (n / 100 % 10),
   Nat.digitChar (n / 10 % 10), Nat.digitChar (n % 10)]

/-- `date(y, m, d).isoformat()`: the string `YYYY-MM-DD` (years `1..9999`). -/
def isoDate (y m d : Nat) : String :=
  String.mk (pad4 y ++ '-' :: (pad2 m ++ '-' :: pad2 d))

/-- The datetime string `YYYY-MM-DDTHH:MM:SSZ` (zero-padded), the shape of
the source's third datetime pattern (and matched by its first, since `%z`
accepts a literal `Z`). -/
def isoDateTimeZ (y m d h mi s : Nat) : String :=
  String.mk ((pad4 y ++ '-' :: (pad2 m ++ '-' :: pad2 d)) ++
    'T' :: ((pad2 h ++ ':' :: (pad2 mi ++ ':' :: pad2 s)) ++ ['Z']))

/-- `isoformat` of the calendar date of day number `z`. -/
def isoOfDay (z : Int) : String :=
  let c := civilFromDays z
  isoDate c.1.toNat c.2.1.toNat c.2.2.toNat

/-- Earliest day representable by `datetime` (0001-01-01). -/
def minDay : Int := daysFromCivil 1 1 1

/-- Latest day representable by `datetime` (9999-12-31). -/
def maxDay : Int := daysFromCivil 9999 12 31

/-- Number of days in month `m` of year `y` (Gregorian), as validated by the
`datetime` constructor that `strptime` ends in. -/
def daysInMonth (y m : Nat) : Nat :=
  if m = 2 then
    if y % 4 = 0 && (y % 100 ≠ 0 || y % 400 = 0) then 29 else 28
  else if m = 4 || m = 6 || m = 9 || m = 11 then 30
  else 31

/-! ## String scanning helpers (the relevant part of `strptime` / `re.search`)

`strptime` directives `%Y/%m/%d/%H/%M/%S` compile to greedy `\d{1,n}`
regexes separated by literal characters.  Because every separator in the
formats used by the source is a non-digit, greedy matching with a digit
budget needs no backtracking. -/

/-- Take at most `max` leading decimal digits, returning their values and the
rest of the input. -/
def takeDigits : Nat → List Char → List Nat × List Char
  | 0, cs => ([], cs)
  | _ + 1, [] => ([], [])
  | n + 1, c :: cs =>
    if c.isDigit then
      let r := takeDigits n cs
      ((c.toNat - 48) :: r.1, r.2)
    else ([], c :: cs)

/-- Value of a most-significant-first digit list. -/
def digitsVal (ds : List Nat) : Nat := ds.foldl (fun a d => a * 10 + d) 0

/-- Parse 1 to `max` digits as a number (fails on zero digits). -/
def parseNum (max : Nat) (cs : List Char) : Option (Nat × List Char) :=
  match takeDigits max cs with
  | ([], _) => none
  | (ds, rest) => some (digitsVal ds, rest)

/-- Expect a single literal character. -/
def expectChar (c : Char) : List Char → Option (List Char)
  | x :: xs => if x = c then some xs else none
  | [] => none

/-- `%Y-%m-%d` prefix: year (1-4 digits), `-`, month (1-2), `-`, day (1-2). -/
def parseDatePart (cs : List Char) : Option (Nat × Nat × Nat × List Char) := do
  let (y, r1) ← parseNum 4 cs
  let r2 ← expectChar '-' r1
  let (m, r3) ← parseNum 2 r2
  let r4 ← expectChar '-' r3
  let (d, r5) ← parseNum 2 r4
  some (y, m, d, r5)

/-- `%H:%M:%S` part: hour, `:`, minute, `:`, second (1-2 digits each). -/
def parseHMS (cs : List Char) : Option (Nat × Nat × Nat × List Char) := do
  let (h, r1) ← parseNum 2 cs
  let r2 ← expectChar ':' r1
  let (mi, r3) ← parseNum 2 r2
  let r4 ← expectChar ':' r3
  let (s, r5) ← parseNum 2 r4
  some (h, mi, s, r5)

/-- `%z`: `Z`, or a sign followed by `HHMM` / `HH:MM` with minutes below 60
and total magnitude below 24 hours.  (The rarely used seconds/fraction
extensions of `%z` are not modelled; no input in this development uses them.) -/
def parseTZ : List Char → Option (List Char)
  | 'Z' :: rest => some rest
  | c :: rest =>
    if c = '+' || c = '-' then
      match rest with
      | h1 :: h2 :: ':' :: m1 :: m2 :: r =>
        if ([h1, h2, m1, m2].all Char.isDigit) then
          let hh := (h1.toNat - 48) * 10 + (h2.toNat - 48)
          let mm := (m1.toNat - 48) * 10 + (m2.toNat - 48)
          if mm ≤ 59 && hh * 60 + mm < 24 * 60 then some r else none
        else none
      | h1 :: h2 :: m1 :: m2 :: r =>
        if ([h1, h2, m1, m2].all Char.isDigit) then
          let hh := (h1.toNat - 48) * 10 + (h2.toNat - 48)
          let mm := (m1.toNat - 48) * 10 + (m2.toNat - 48)
          if mm ≤ 59 && hh * 60 + mm < 24 * 60 then some r else none
        else none
      | _ => none
    else none
  | [] => none

/-- Fractional seconds `.%f` (1-6 digits); the digits are discarded since the
source takes only the calendar date. -/
def parseFrac : List Char → Option (List Char)
  | '.' :: rest =>
    match takeDigits 6 rest with
    | ([], _) => none
    | (_, r) => some r
  | _ => none

/-- Range validation performed by the `datetime` constructor at the end of
`strptime` (year 1-9999, month 1-12, day within the month). -/
def validDate (y m d : Nat) : Bool :=
  1 ≤ y && y ≤ 9999 && 1 ≤ m && m ≤ 12 && 1 ≤ d && d ≤ daysInMonth y m

/-- Time-of-day validation of the `datetime` constructor. -/
def validTime (h mi s : Nat) : Bool := h ≤ 23 && mi ≤ 59 && s ≤ 59

/-- Wall-clock seconds of `(y, m, d, h, mi, s)` since the epoch. -/
def wallSecs (y m d h mi s : Nat) : Int :=
  daysFromCivil y m d * 86400 + h * 3600 + mi * 60 + s

/-- Day number obtained by adding `tz` hours to the parsed wall clock and
taking the calendar date (`dtp + timedelta(hours=TZ_OFFSET)` then `.date()`). -/
def shiftedDay (tz : Int) (y m d h mi s : Nat) : Int :=
  Int.fdiv (wallSecs y m d h mi s + tz * 3600) 86400

/-- Result of a successful datetime parse: add the offset once, take the date;
`none` when the shifted datetime overflows `datetime`'s range (Python raises
`OverflowError`, the `except ... pass` moves on to the next format). -/
def dtResult (tz : Int) (y m d h mi s : Nat) : Option String :=
  if validDate y m d && validTime h mi s then
    let d2 := shiftedDay tz y m d h mi s
    if minDay ≤ d2 ∧ d2 ≤ maxDay then some (isoOfDay d2) else none
  else none

/-- Format `"%Y-%m-%dT%H:%M:%S%z"`. -/
def fmtTZ (tz : Int) (cs : List Char) : Option String := do
  let (y, m, d, r1) ← parseDatePart cs
  let r2 ← expectChar 'T' r1
  let (h, mi, s, r3) ← parseHMS r2
  let r4 ← parseTZ r3
  if r4.isEmpty then dtResult tz y m d h mi s else none

/-- Format `"%Y-%m-%dT%H:%M:%S.%fZ"`. -/
def fmtFracZ (tz : Int) (cs : List Char) : Option String := do
  let (y, m, d, r1) ← parseDatePart cs
  let r2 ← expectChar 'T' r1
  let (h, mi, s, r3) ← parseHMS r2
  let r4 ← parseFrac r3
  let r5 ← expectChar 'Z' r4
  if r5.isEmpty then dtResult tz y m d h mi s else none

/-- Format `"%Y-%m-%dT%H:%M:%SZ"`. -/
def fmtZ (tz : Int) (cs : List Char) : Option String := do
  let (y, m, d, r1) ← parseDatePart cs
  let r2 ← expectChar 'T' r1
  let (h, mi, s, r3) ← parseHMS r2
  let r4 ← expectChar 'Z' r3
  if r4.isEmpty then dtResult tz y m d h mi s else none

/-- Format `"%Y-%m-%d %H:%M:%S"`. -/
def fmtSpace (tz : Int) (cs : List Char) : Option String := do
  let (y, m, d, r1) ← parseDatePart cs
  let r2 ← expectChar ' ' r1
  let (h, mi, s, r3) ← parseHMS r2
  if r3.isEmpty then dtResult tz y m d h mi s else none

/-- The datetime-format loop of `norm_date`: the four formats in source
order; a parse failure or an overflow `pass`es to the next attempt. -/
def tryDatetimeFormats (tz : Int) (cs : List Char) : Option String :=
  (fmtTZ tz cs).orElse fun _ =>
    (fmtFracZ tz cs).orElse fun _ =>
      (fmtZ tz cs).orElse fun _ => fmtSpace tz cs

/-- Bare-date format `"%Y-%m-%d"` (full match, validated). -/
def parseBareDate (cs : List Char) : Option (Nat × Nat × Nat) := do
  let (y, m, d, r) ← parseDatePart cs
  if r.isEmpty && validDate y m d then some (y, m, d) else none

/-- Bare-date format `"%m/%d/%Y"` (full match, validated). -/
def parseMDY (cs : List Char) : Option (Nat × Nat × Nat) := do
  let (m, r1) ← parseNum 2 cs
  let r2 ← expectChar '/' r1
  let (d, r3) ← parseNum 2 r2
  let r4 ← expectChar '/' r3
  let (y, r5) ← parseNum 4 r4
  if r5.isEmpty && validDate y m d then some (y, m, d) else none

/-- Try to match `20\d{2}-\d{2}-\d{2}` at the head of the input
(`re.search`'s per-position attempt). -/
def matchIsoSub : List Char → Option String
  | '2' :: '0' :: a :: b :: '-' :: c :: d :: '-' :: e :: f :: _ =>
    if [a, b, c, d, e, f].all Char.isDigit then
      some (String.mk ['2', '0', a, b, '-', c, d, '-', e, f])
    else none
  | _ => none

/-- `re.search(r"(20\d{2}-\d{2}-\d{2})", s)`: first position, left to right,
where the shape matches; the matched substring is returned verbatim. -/
def findIsoSub : List Char → Option String
  | [] => none
  | c :: cs =>
    match matchIsoSub (c :: cs) with
    | some s => some s
    | none => findIsoSub cs

/-- Python `str.strip()` on a character list. -/
def pyStrip (cs : List Char) : List Char :=
  ((cs.dropWhile Char.isWhitespace).reverse.dropWhile Char.isWhitespace).reverse

/-- The string branch of `norm_date`: datetime formats (offset applied), then
pure-date formats (offset NOT applied), then the embedded ISO-date regex
search (used verbatim).  `cs` is the already-stripped character list. -/
def strDatePath (tz : Int) (cs : List Char) : Option String :=
  match tryDatetimeFormats tz cs with
  | some r => some r
  | none =>
    match parseBareDate cs with
    | some (y, m, d) => some (isoDate y m d)
    | none =>
      match parseMDY cs with
      | some (y, m, d) => some (isoDate y m d)
      | none => findIsoSub cs

/-- Python `int(v)` on a rational (truncation toward zero). -/
def ratTrunc (q : Rat) : Int := q.num.tdiv q.den

/-- The numeric branch of `norm_date`: epoch seconds (floor-divided by 1000
when above 10^12), converted to a UTC date after adding the offset once;
`none` when `fromtimestamp` or the shifted datetime is out of range. -/
def epochPath (tz : Int) (ts0 : Int) : Option String :=
  let ts := if ts0 > 1000000000000 then Int.fdiv ts0 1000 else ts0
  let d1 := Int.fdiv ts 86400
  let d2 := Int.fdiv (ts + tz * 3600) 86400
  if minDay ≤ d1 ∧ d1 ≤ maxDay ∧ minDay ≤ d2 ∧ d2 ≤ maxDay then
    some (isoOfDay d2)
  else none

/-- `norm_date(v)` with the global `TZ_OFFSET` threaded as `tz`.  Booleans
take the numeric branch because Python's `bool` is a subclass of `int`, so
`isinstance(v, (int, float))` is true for them. -/
def norm_date (tz : Int) (v : Json) : Option String :=
  match v with
  | .null => none
  | .bool b => epochPath tz (if b then 1 else 0)
  | .num q => epochPath tz (ratTrunc q)
  | .str s => strDatePath tz (pyStrip s.toList)
  | .arr _ => none
  | .obj _ => none

/-! ## Numeric coercion -/

/-- Parse an optional sign. Returns the sign as a rational `1` or `-1`. -/
def parseSign : List Char → Rat × List Char
  | '+' :: cs => (1, cs)
  | '-' :: cs => (-1, cs)
  | cs => (1, cs)

/-- Value of a digit list read as the fractional part `0.d₁d₂…`. -/
def fracVal (ds : List Nat) : Rat :=
  ds.foldr (fun d acc => ((d : Rat) + acc) / 10) 0

/-- Python `float()` on an already-stripped, comma-free string: optional
sign, then `digits`, `digits.`, `digits.digits` or `.digits`, then an
optional exponent.  (`inf`/`nan` and underscore separators, which `float()`
also accepts, have no rational counterpart resp. do not occur in the inputs
of this development and are not modelled.) -/
def parseFloat (cs : List Char) : Option Rat :=
  let (sgn, cs) := parseSign cs
  let (ip, r1) := takeDigits cs.length cs
  let intOk := !ip.isEmpty
  let (fp, r2) :=
    match r1 with
    | '.' :: rest => let t := takeDigits rest.length rest; (t.1, t.2)
    | _ => ([], r1)
  let fracOk := match r1 with | '.' :: _ => true | _ => false
  if !intOk && !(fracOk && !fp.isEmpty) then none
  else
    let mantissa : Rat := sgn * ((digitsVal ip : Rat) + fracVal fp)
    match r2 with
    | [] => some mantissa
    | 'e' :: rest1 | 'E' :: rest1 =>
      let (esgn, rest2) := parseSign rest1
      match takeDigits rest2.length rest2 with
      | ([], _) => none
      | (eds, []) =>
        let e := digitsVal eds
        some (if esgn = 1 then mantissa * 10 ^ e else mantissa / 10 ^ e)
      | (_, _ :: _) => none
    | _ => none

/-- `coerce_number(v)`.  Booleans pass the `isinstance(v, (int, float))`
check (Python `bool` is an `int` subclass) and coerce to `1.0` / `0.0`;
strings are stripped, have all commas removed, and are parsed as floats;
everything else is not numeric. -/
def coerce_number (v : Json) : Option Rat :=
  match v with
  | .null => none
  | .bool b => some (if b then 1 else 0)
  | .num q => some q
  | .str s => parseFloat ((pyStrip s.toList).filter (fun c => c ≠ ','))
  | .arr _ => none
  | .obj _ => none

/-! ## Tree walker -/

mutual

/-- `iter_dicts(obj)`: depth-first sequence of every dictionary node in the
tree, the node itself before its descendants, recursing into object values
and array elements. -/
def iter_dicts : Json → List RecT
  | .obj fs => fs :: iterFields fs
  | .arr xs => iterElems xs
  | _ => []

/-- Records found in the values of an object's fields, in field order. -/
def iterFields : List (String × Json) → List RecT
  | [] => []
  | kv :: rest => iter_dicts kv.2 ++ iterFields rest

/-- Records found in the elements of an array, in element order. -/
def iterElems : List Json → List RecT
  | [] => []
  | x :: rest => iter_dicts x ++ iterElems rest

end

/-! ## Per-record accumulation (the body of the main loop) -/

/-- The per-field step of the metric loop of `main`: skip date and id-like
keys, coerce the value, suppress a bare `spend`/`revenue` when a scaled
sibling (`*_cents`/`*_micros`, or a cents-like spend alias) is present in
the record's lowercased key set, apply `_cents`/`_micros`/cents-like
scaling, and remap the base name.  Returns the `(metric, value)` pairs the
field appends (`keep_raw` may add the unremapped base name as a second
pair). -/
def field_contribs (keep_raw : Bool) (keyset : List String) (k : String) (v : Json) :
    List (String × Rat) :=
  let kl := lowerStr k
  if DATE_KEYS.contains kl || SKIP_KEYS.contains kl then []
  else
    match coerce_number v with
    | none => []
    | some num0 =>
      if (kl == "spend" || kl == "revenue") &&
          ((keyset.contains (kl ++ "_cents") || keyset.contains (kl ++ "_micros")) ||
            (kl == "spend" && CENTS_LIKE.any (fun s => keyset.contains s))) then []
      else
        let scaled : Rat × String :=
          if endsWithStr kl "_cents" then (num0 / 100, dropRightStr kl 6)
          else if endsWithStr kl "_micros" then (num0 / 1000000, dropRightStr kl 7)
          else (if CENTS_LIKE.contains kl then num0 / 100 else num0, kl)
        let num := scaled.1
        let base := scaled.2
        let std := ((REMAP.find? (fun p => p.1 == base)).map Prod.snd).getD base
        (std, num) :: (if keep_raw && base != std then [(base, num)] else [])

/-- The date-resolution plus metric loop of `main` for one record: the date
value is the value of the FIRST key whose lowercase name is a date key; if
there is no such key or `norm_date` fails on its value, the record
contributes nothing; otherwise every field contributes through
`field_contribs` under the resolved date. -/
def record_contribs (tz : Int) (keep_raw : Bool) (d : RecT) : List Contrib :=
  match d.find? (fun kv => DATE_KEYS.contains (lowerStr kv.1)) with
  | none => []
  | some kv =>
    match norm_date tz kv.2 with
    | none => []
    | some date =>
      let keyset := d.map (fun kv => lowerStr kv.1)
      d.flatMap (fun kv =>
        (field_contribs keep_raw keyset kv.1 kv.2).map (fun mc => (date, mc.1, mc.2)))

/-- One iteration of `for d in iter_dicts(data)`: when range-total skipping
is on and the record looks like a range total, `continue` (no
contribution); otherwise process the record. -/
def process_dict (tz : Int) (keep_raw skip_range_totals : Bool) (d : RecT) : List Contrib :=
  if skip_range_totals && looks_like_range_total d then [] else
    record_contribs tz keep_raw d

/-- All contributions one parsed document makes to the accumulator. -/
def harvest_doc (tz : Int) (keep_raw skip_range_totals : Bool) (doc : Json) : List Contrib :=
  (iter_dicts doc).flatMap (process_dict tz keep_raw skip_range_totals)

/-! ## Reduction engine -/

/-- Python `min` over a non-empty list (the empty case never occurs at call
sites; it is given the value 0 to stay total). -/
def pyMin : List Rat → Rat
  | [] => 0
  | x :: xs => xs.foldl min x

/-- Python `max` over a non-empty list. -/
def pyMax : List Rat → Rat
  | [] => 0
  | x :: xs => xs.foldl max x

/-- Insert into a sorted list, keeping it sorted (ascending). -/
def sortInsert (x : Rat) : List Rat → List Rat
  | [] => [x]
  | y :: ys => if x ≤ y then x :: y :: ys else y :: sortInsert x ys

/-- Ascending sort, modelling `sorted(data)` inside `statistics.median`. -/
def pySorted (l : List Rat) : List Rat := l.foldr sortInsert []

/-- `statistics.median`: middle element of the sorted data, or the mean of
the two middle elements when the length is even. -/
def pymedian (l : List Rat) : Rat :=
  let s := pySorted l
  let n := s.length
  if n % 2 = 1 then s.getD (n / 2) 0
  else (s.getD (n / 2 - 1) 0 + s.getD (n / 2) 0) / 2

/-- `reduce_vals(arr, policy)`: drop `None` entries, return 0 on an empty
list, else combine under the policy (unknown policies fall back to sum,
like the final `return sum(arr)`). -/
def reduce_vals (arr0 : List (Option Rat)) (policy : String) : Rat :=
  let arr := arr0.filterMap id
  if arr.isEmpty then 0
  else if policy == "sum" then arr.foldl (· + ·) 0
  else if policy == "min-nonzero" then
    let pos := arr.filter (fun v => decide (0 < v))
    if pos.isEmpty then 0 else pyMin pos
  else if policy == "min" then pyMin arr
  else if policy == "max" then pyMax arr
  else if policy == "median" then pymedian arr
  else arr.foldl (· + ·) 0

/-! ## Derived metrics -/

/-- Round half to even at integer precision (CPython `round`'s tie rule,
on the idealized exact value). -/
def roundHalfEven (q : Rat) : Int :=
  let f : Int := ⌊q⌋
  let r : Rat := q - f
  if r < 1 / 2 then f
  else if 1 / 2 < r then f + 1
  else if f % 2 = 0 then f else f + 1

/-- `round(x, 6)` on the idealized exact value. -/
def pyround6 (q : Rat) : Rat := (roundHalfEven (q * 1000000) : Rat) / 1000000

/-- The derived-metric block of `main`: `(ctr, cpc, cpm, order_rate, roas)`
for one row, each ratio 0 when a falsy (zero) denominator guards it. -/
def derived_metrics (views clicks spend orders revenue : Rat) :
    Rat × Rat × Rat × Rat × Rat :=
  (pyround6 (if views ≠ 0 then clicks / views else 0),
   pyround6 (if clicks ≠ 0 then spend / clicks else 0),
   pyround6 (if views ≠ 0 then spend / (views / 1000) else 0),
   pyround6 (if clicks ≠ 0 then orders / clicks else 0),
   pyround6 (if spend ≠ 0 then revenue / spend else 0))

/-! ## Recursion limits and the per-file loop

The interpreter's recursion limit is made explicit: `jdepth` is the
container-nesting depth a recursive-descent JSON parser consumes (one frame
per object/array level), and `iterDictsB` is `iter_dicts` with the stack
budget threaded (one frame per recursive call).  In `main`, `json.loads`
sits inside `try/except Exception` (and `RecursionError` is an `Exception`),
so a parse-stage recursion error skips the file; the `for d in
iter_dicts(data)` loop sits OUTSIDE any `try`, so a walker-stage recursion
error propagates out of `main`. -/

mutual

/-- Container-nesting depth of a JSON value (frames `json.loads` recurses). -/
def jdepth : Json → Nat
  | .obj fs => 1 + jdepthFields fs
  | .arr xs => 1 + jdepthElems xs
  | _ => 0

/-- Greatest depth among an object's field values. -/
def jdepthFields : List (String × Json) → Nat
  | [] => 0
  | kv :: rest => max (jdepth kv.2) (jdepthFields rest)

/-- Greatest depth among an array's elements. -/
def jdepthElems : List Json → Nat
  | [] => 0
  | x :: rest => max (jdepth x) (jdepthElems rest)

end

mutual

/-- `iter_dicts` with the recursion budget explicit: each recursive call
costs one frame; a call with no budget left raises (`.error ()`,
modelling `RecursionError`). -/
def iterDictsB : Nat → Json → Except Unit (List RecT)
  | 0, _ => .error ()
  | n + 1, .obj fs =>
    match iterFieldsB n fs with
    | .error e => .error e
    | .ok r => .ok (fs :: r)
  | n + 1, .arr xs => iterElemsB n xs
  | _ + 1, _ => .ok []

/-- Budgeted walk over an object's field values; an error in any value
propagates (the generator raises through the `yield from` chain). -/
def iterFieldsB : Nat → List (String × Json) → Except Unit (List RecT)
  | _, [] => .ok []
  | n, kv :: rest =>
    match iterDictsB n kv.2 with
    | .error e => .error e
    | .ok a =>
      match iterFieldsB n rest with
      | .error e => .error e
      | .ok b => .ok (a ++ b)

/-- Budgeted walk over an array's elements. -/
def iterElemsB : Nat → List Json → Except Unit (List RecT)
  | _, [] => .ok []
  | n, x :: rest =>
    match iterDictsB n x with
    | .error e => .error e
    | .ok a =>
      match iterElemsB n rest with
      | .error e => .error e
      | .ok b => .ok (a ++ b)

end

/-- The per-file loop of `main` over already-read documents, with the two
recursion budgets explicit.  A document whose depth exceeds the parse
budget makes `json.loads` raise inside `try/except` — the file is skipped
and the loop continues.  A `RecursionError` raised by `iter_dicts` during
the record loop is NOT caught anywhere in `main`: it propagates and the
whole run aborts (`.error ()`), losing all remaining files. -/
def run_docs (parseB walkB : Nat) (tz : Int) (keep_raw skip_range_totals : Bool) :
    List Json → Except Unit (List Contrib)
  | [] => .ok []
  | doc :: rest =>
    if parseB < jdepth doc then
      run_docs parseB walkB tz keep_raw skip_range_totals rest
    else
      match iterDictsB walkB doc with
      | .error e => .error e
      | .ok ds =>
        match run_docs parseB walkB tz keep_raw skip_range_totals rest with
        | .error e => .error e
        | .ok acc => .ok (ds.flatMap (process_dict tz keep_raw skip_range_totals) ++ acc)

/-! ## Helper lemmas -/

/-- A left fold of `min` is bounded by the seed and every list element. -/
lemma foldl_min_le (y : Rat) (l : List Rat) : ∀ z ∈ y :: l, l.foldl min y ≤ z := by
  induction l generalizing y with
  | nil => simp
  | cons a t ih =>
    intro z hz
    simp only [List.mem_cons] at hz
    simp only [List.foldl_cons]
    have hhead : t.foldl min (min y a) ≤ min y a := ih (min y a) (min y a) (by simp)
    rcases hz with rfl | rfl | hz
    · exact le_trans hhead (min_le_left _ _)
    · exact le_trans hhead (min_le_right _ _)
    · exact ih (min y a) z (by simp [hz])

/-- A left fold of `min` is the seed or one of the list elements. -/
lemma foldl_min_mem (y : Rat) (l : List Rat) : l.foldl min y ∈ y :: l := by
  induction l generalizing y with
  | nil => simp
  | cons a t ih =>
    simp only [List.foldl_cons]
    rcases List.mem_cons.mp (ih (min y a)) with h | h
    · rcases min_choice y a with hc | hc
      · rw [h, hc]; simp
      · rw [h, hc]; simp
    · simp only [List.mem_cons]
      right; right; exact h

/-- Mapping `some` and then dropping `none`s is the identity. -/
lemma filterMap_id_map_some (l : List Rat) : (l.map some).filterMap id = l := by
  induction l with
  | nil => rfl
  | cons a t ih => simp [ih]

/-! ## Claims -/

/-- C10: `coerce_number` accepts the JSON booleans `true` and `false` as the
numbers `1.0` and `0.0` (Python's `bool` is an `int` subclass, so they pass
`isinstance(v, (int, float))`), and a boolean-valued field whose key is
neither a date key nor a skip key is accumulated as a metric value. -/
theorem coerce_number_accepts_booleans :
    coerce_number (Json.bool true) = some 1 ∧
    coerce_number (Json.bool false) = some 0 ∧
    record_contribs 0 false
        [("date", Json.str "2024-03-01"), ("in_budget", Json.bool true)] =
      [("2024-03-01", "in_budget", 1)] := by
  refine ⟨rfl, rfl, ?_⟩
  decide

/-- C4: under the `min-nonzero` policy, `reduce_vals` returns 0 when no
observed value is strictly positive, and otherwise returns a strictly
positive member of the sequence that is a lower bound of all its strictly
positive members (i.e. the smallest strictly positive value); on the spec's
instance `[120, 4, 6]` it returns `4`. -/
theorem reduce_vals_min_nonzero_spec (l : List Rat) :
    ((∀ v ∈ l, v ≤ 0) → reduce_vals (l.map some) "min-nonzero" = 0) ∧
    ((∃ x ∈ l, 0 < x) →
      reduce_vals (l.map some) "min-nonzero" ∈ l ∧
      0 < reduce_vals (l.map some) "min-nonzero" ∧
      ∀ v ∈ l, 0 < v → reduce_vals (l.map some) "min-nonzero" ≤ v) ∧
    reduce_vals [some 120, some 4, some 6] "min-nonzero" = 4 := by
  refine ⟨?_, ?_, by decide⟩
  · intro hnp
    simp only [reduce_vals, filterMap_id_map_some]
    cases l with
    | nil => simp
    | cons a t =>
      have hfil : (a :: t).filter (fun v => decide (0 < v)) = [] := by
        apply List.filter_eq_nil_iff.mpr
        intro v hv
        simpa using not_lt.mpr (hnp v hv)
      simp [hfil]
  · intro hpos
    simp only [reduce_vals, filterMap_id_map_some]
    obtain ⟨x, hxl, hx⟩ := hpos
    have hne : l ≠ [] := by rintro rfl; exact absurd hxl (by simp)
    have hxf : x ∈ l.filter (fun v => decide (0 < v)) :=
      List.mem_filter.mpr ⟨hxl, by simpa using hx⟩
    have hfne : l.filter (fun v => decide (0 < v)) ≠ [] := by
      intro h; rw [h] at hxf; exact absurd hxf (by simp)
    rw [if_neg (by simpa using hne)]
    simp only [show ("min-nonzero" == "sum") = false from rfl, Bool.false_eq_true,
      if_false, beq_self_eq_true, if_true]
    rw [if_neg (by simpa using hfne)]
    obtain ⟨y, ys, hys⟩ := List.exists_cons_of_ne_nil hfne
    rw [hys, pyMin]
    have hmem0 : ys.foldl min y ∈ y :: ys := foldl_min_mem y ys
    have hmemf : ys.foldl min y ∈ l.filter (fun v => decide (0 < v)) := by
      rw [hys]; exact hmem0
    refine ⟨(List.mem_filter.mp hmemf).1, by simpa using (List.mem_filter.mp hmemf).2, ?_⟩
    intro v hv hv0
    have hvf : v ∈ y :: ys := by
      rw [← hys]; exact List.mem_filter.mpr ⟨hv, by simpa using hv0⟩
    exact foldl_min_le y ys v hvf

/-- C4 witness: the no-positive case at `[-1, 0]` and the positive case at
the spec's `[120, 4, 6]`. -/
theorem reduce_vals_min_nonzero_spec_witness :
    reduce_vals [some (-1), some 0] "min-nonzero" = 0 ∧
    reduce_vals [some 120, some 4, some 6] "min-nonzero" ∈ [(120 : Rat), 4, 6] ∧
    0 < reduce_vals [some 120, some 4, some 6] "min-nonzero" :=
  ⟨(reduce_vals_min_nonzero_spec [-1, 0]).1 (by decide),
   ((reduce_vals_min_nonzero_spec [120, 4, 6]).2.1 ⟨4, by decide, by decide⟩).1,
   ((reduce_vals_min_nonzero_spec [120, 4, 6]).2.1 ⟨4, by decide, by decide⟩).2.1⟩

/-- C6 counterexample: the claim "reducing `[x]` under any policy yields
`x`" fails at `x = -1` under `min-nonzero`: the positives of `[-1]` are
empty, so `reduce_vals` returns 0, not `-1`. -/
theorem reduce_vals_singleton_fails_on_negative :
    reduce_vals [some (-1)] "min-nonzero" ≠ -1 ∧
    reduce_vals [some (-1)] "min-nonzero" = 0 := by decide

/-- C6 (amended): for every NONNEGATIVE `x`, reducing the single-value
accumulator `[x]` under each of the five policies yields `x` (for negative
`x`, `min-nonzero` yields 0 while the other four policies still yield `x`). -/
theorem reduce_vals_singleton_nonneg (x : Rat) (hx : 0 ≤ x) :
    reduce_vals [some x] "sum" = x ∧
    reduce_vals [some x] "min-nonzero" = x ∧
    reduce_vals [some x] "min" = x ∧
    reduce_vals [some x] "max" = x ∧
    reduce_vals [some x] "median" = x := by
  refine ⟨by simp [reduce_vals], ?_, by simp [reduce_vals, pyMin],
    by simp [reduce_vals, pyMax], by simp [reduce_vals, pymedian, pySorted, sortInsert]⟩
  rcases eq_or_lt_of_le hx with h | h
  · simp [reduce_vals, ← h]
  · simp [reduce_vals, pyMin, List.filter, h]

/-- C6 witness: the spec's instance, reducing `[5.0]` under every policy. -/
theorem reduce_vals_singleton_nonneg_witness :
    reduce_vals [some 5] "sum" = 5 ∧
    reduce_vals [some 5] "min-nonzero" = 5 ∧
    reduce_vals [some 5] "min" = 5 ∧
    reduce_vals [some 5] "max" = 5 ∧
    reduce_vals [some 5] "median" = 5 :=
  reduce_vals_singleton_nonneg 5 (by norm_num)

/-- C7: each derived ratio is 0 whenever the metric guarding it (its
denominator) is 0: `ctr` and `cpm` when `views = 0`, `cpc` and `order_rate`
when `clicks = 0`, `roas` when `spend = 0`.  `derived_metrics` is a total
function of the five reduced values, so no input can raise a division
error; on the spec's instance the five ratios take their documented values. -/
theorem derived_metrics_zero_denominators (v c s o r : Rat) :
    (v = 0 → (derived_metrics v c s o r).1 = 0 ∧ (derived_metrics v c s o r).2.2.1 = 0) ∧
    (c = 0 → (derived_metrics v c s o r).2.1 = 0 ∧ (derived_metrics v c s o r).2.2.2.1 = 0) ∧
    (s = 0 → (derived_metrics v c s o r).2.2.2.2 = 0) ∧
    derived_metrics 1000 20 50 2 40 = (1 / 50, 5 / 2, 50, 1 / 10, 4 / 5) := by
  have h0 : pyround6 0 = 0 := by norm_num [pyround6, roundHalfEven]
  refine ⟨?_, ?_, ?_, by norm_num [derived_metrics, pyround6, roundHalfEven]⟩
  · rintro rfl; simp [derived_metrics, h0]
  · rintro rfl; simp [derived_metrics, h0]
  · rintro rfl; simp [derived_metrics, h0]

/-- C7 witness: all five ratios at the all-zero row. -/
theorem derived_metrics_zero_denominators_witness :
    (derived_metrics 0 0 0 0 0).1 = 0 ∧ (derived_metrics 0 0 0 0 0).2.1 = 0 ∧
    (derived_metrics 0 0 0 0 0).2.2.1 = 0 ∧ (derived_metrics 0 0 0 0 0).2.2.2.1 = 0 ∧
    (derived_metrics 0 0 0 0 0).2.2.2.2 = 0 :=
  ⟨((derived_metrics_zero_denominators 0 0 0 0 0).1 rfl).1,
   ((derived_metrics_zero_denominators 0 0 0 0 0).2.1 rfl).1,
   ((derived_metrics_zero_denominators 0 0 0 0 0).1 rfl).2,
   ((derived_metrics_zero_denominators 0 0 0 0 0).2.1 rfl).2,
   (derived_metrics_zero_denominators 0 0 0 0 0).2.2.1 rfl⟩

/-- C2: `looks_like_range_total` returns true iff the record's lowercased
key set intersects `RANGE_HINT_KEYS` and contains none of the per-day
container key names; a record classified as a range total contributes
nothing when range-total suppression is enabled (the default,
`skip_range_totals = true`), and with suppression disabled every record is
processed normally. -/
theorem range_total_classification_and_suppression :
    (∀ d : RecT, looks_like_range_total d = true ↔
      ((∃ kv ∈ d, lowerStr kv.1 ∈ RANGE_HINT_KEYS) ∧
        ∀ kv ∈ d, lowerStr kv.1 ∉ DAY_CONTAINER_KEYS)) ∧
    (∀ (tz : Int) (keep : Bool) (d : RecT), looks_like_range_total d = true →
      process_dict tz keep true d = []) ∧
    (∀ (tz : Int) (keep : Bool) (d : RecT),
      process_dict tz keep false d = record_contribs tz keep d) := by
  refine ⟨?_, ?_, ?_⟩
  · intro d
    simp only [looks_like_range_total]
    constructor
    · intro h
      by_cases h1 : (d.map (fun kv => lowerStr kv.1)).any (fun k => RANGE_HINT_KEYS.contains k)
      · rw [h1] at h
        simp only [Bool.not_true, Bool.false_eq_true, if_false] at h
        by_cases h2 : DAY_CONTAINER_KEYS.any (fun k => (d.map (fun kv => lowerStr kv.1)).contains k)
        · rw [if_pos h2] at h; exact absurd h (by simp)
        · constructor
          · obtain ⟨k, hk, hkh⟩ := List.any_eq_true.mp h1
            obtain ⟨kv, hkv, rfl⟩ := List.mem_map.mp hk
            exact ⟨kv, hkv, List.elem_iff.mp hkh⟩
          · intro kv hkv hmem
            apply h2
            apply List.any_eq_true.mpr
            exact ⟨lowerStr kv.1, hmem, List.elem_iff.mpr (List.mem_map.mpr ⟨kv, hkv, rfl⟩)⟩
      · rw [Bool.not_eq_true] at h1
        rw [h1] at h
        simp at h
    · rintro ⟨⟨kv, hkv, hmem⟩, hnone⟩
      have h1 : (d.map (fun kv => lowerStr kv.1)).any (fun k => RANGE_HINT_KEYS.contains k) = true :=
        List.any_eq_true.mpr ⟨lowerStr kv.1, List.mem_map.mpr ⟨kv, hkv, rfl⟩, List.elem_iff.mpr hmem⟩
      have h2 : DAY_CONTAINER_KEYS.any
          (fun k => (d.map (fun kv => lowerStr kv.1)).contains k) = false := by
        rw [Bool.eq_false_iff]
        intro hc
        obtain ⟨k, hk, hkc⟩ := List.any_eq_true.mp hc
        obtain ⟨kv2, hkv2, heq⟩ := List.mem_map.mp (List.elem_iff.mp hkc)
        exact hnone kv2 hkv2 (heq ▸ hk)
      rw [h1, h2]
      simp
  · intro tz keep d h
    simp [process_dict, h]
  · intro tz keep d
    simp [process_dict]

/-- C2 witness: the spec's example record is classified as a range total
and, with suppression on, contributes nothing; with suppression off it is
handed to normal record processing. -/
theorem range_total_classification_and_suppression_witness :
    process_dict 0 false true
        [("start_date", Json.str "2024-03-01"), ("end_date", Json.str "2024-03-07"),
          ("total_spend", Json.num 700)] = [] ∧
    process_dict 0 false false
        [("start_date", Json.str "2024-03-01"), ("end_date", Json.str "2024-03-07"),
          ("total_spend", Json.num 700)] =
      record_contribs 0 false
        [("start_date", Json.str "2024-03-01"), ("end_date", Json.str "2024-03-07"),
          ("total_spend", Json.num 700)] :=
  ⟨range_total_classification_and_suppression.2.1 0 false _ (by decide),
   range_total_classification_and_suppression.2.2 0 false _⟩

/-- C3: when a record's lowercased key set contains a scaled sibling
(`spend_cents`/`spend_micros`, `revenue_cents`/`revenue_micros`) of a bare
`spend`/`revenue` field, the bare field contributes nothing; the scaled
sibling itself always contributes exactly its rescaled value (divided by
100 for `_cents`, by 1,000,000 for `_micros`) under the canonical base
name; in particular the record `{"spend_cents": 500, "spend": 999}` with a
resolvable date yields exactly one accumulated `spend` value, `5.0`. -/
theorem scaled_sibling_suppresses_bare_field :
    (∀ (keep : Bool) (ks : List String) (k : String) (v : Json),
      (lowerStr k = "spend" ∨ lowerStr k = "revenue") →
      (ks.contains (lowerStr k ++ "_cents") = true ∨
        ks.contains (lowerStr k ++ "_micros") = true) →
      field_contribs keep ks k v = []) ∧
    (∀ (keep : Bool) (ks : List String) (n : Rat),
      field_contribs keep ks "spend_cents" (Json.num n) = [("spend", n / 100)] ∧
      field_contribs keep ks "spend_micros" (Json.num n) = [("spend", n / 1000000)] ∧
      field_contribs keep ks "revenue_cents" (Json.num n) = [("revenue", n / 100)] ∧
      field_contribs keep ks "revenue_micros" (Json.num n) = [("revenue", n / 1000000)]) ∧
    record_contribs 0 false
        [("date", Json.str "2024-03-01"), ("spend_cents", Json.num 500),
          ("spend", Json.num 999)] =
      [("2024-03-01", "spend", 5)] := by
  refine ⟨?_, ?_, ?_⟩
  · intro keep ks k v hk hks
    simp only [field_contribs]
    rcases hk with hk | hk <;> rw [hk] <;> rw [hk] at hks
    · have hd : DATE_KEYS.contains "spend" = false := by decide
      have hs : SKIP_KEYS.contains "spend" = false := by decide
      simp only [hd, hs, Bool.or_false, Bool.false_or, Bool.false_eq_true, if_false]
      cases coerce_number v with
      | none => rfl
      | some n =>
        have hcond : (("spend" == "spend" || "spend" == "revenue") &&
            ((ks.contains ("spend" ++ "_cents") || ks.contains ("spend" ++ "_micros")) ||
              ("spend" == "spend" && CENTS_LIKE.any (fun s => ks.contains s)))) = true := by
          rcases hks with h | h <;> rw [h] <;> simp
        simp only [hcond, if_true]
    · have hd : DATE_KEYS.contains "revenue" = false := by decide
      have hs : SKIP_KEYS.contains "revenue" = false := by decide
      simp only [hd, hs, Bool.or_false, Bool.false_or, Bool.false_eq_true, if_false]
      cases coerce_number v with
      | none => rfl
      | some n =>
        have hcond : (("revenue" == "spend" || "revenue" == "revenue") &&
            ((ks.contains ("revenue" ++ "_cents") || ks.contains ("revenue" ++ "_micros")) ||
              ("revenue" == "spend" && CENTS_LIKE.any (fun s => ks.contains s)))) = true := by
          rcases hks with h | h <;> rw [h] <;> simp
        simp only [hcond, if_true]
  · intro keep ks n
    refine ⟨?_, ?_, ?_, ?_⟩ <;> cases keep <;> rfl
  · have h : record_contribs 0 false
        [("date", Json.str "2024-03-01"), ("spend_cents", Json.num 500),
          ("spend", Json.num 999)] =
        [("2024-03-01", "spend", 500 / 100)] := rfl
    rw [h]
    norm_num

/-- C3 witness: the bare `spend` field of the example record contributes
nothing because `spend_cents` is present in the record's key set. -/
theorem scaled_sibling_suppresses_bare_field_witness :
    field_contribs false ["date", "spend_cents", "spend"] "spend" (Json.num 999) = [] ∧
    field_contribs false ["date", "spend_cents", "spend"] "spend_cents" (Json.num 500) =
      [("spend", 500 / 100)] :=
  ⟨scaled_sibling_suppresses_bare_field.1 false ["date", "spend_cents", "spend"]
      "spend" (Json.num 999) (Or.inl (by decide)) (Or.inl (by decide)),
   (scaled_sibling_suppresses_bare_field.2.1 false ["date", "spend_cents", "spend"] 500).1⟩

/-- C8: date resolution uses the value of the FIRST key (in the record's
key iteration order) whose lowercase name is a date key; when `norm_date`
fails on that value the whole record is dropped — no contribution at all —
regardless of what any later date key holds. -/
theorem first_date_key_decides (tz : Int) (keep : Bool) (pre : List (String × Json))
    (k : String) (v : Json) (suf : List (String × Json))
    (hpre : ∀ p ∈ pre, DATE_KEYS.contains (lowerStr p.1) = false)
    (hk : DATE_KEYS.contains (lowerStr k) = true)
    (hv : norm_date tz v = none) :
    record_contribs tz keep (pre ++ (k, v) :: suf) = [] := by
  have hfind : (pre ++ (k, v) :: suf).find?
      (fun kv => DATE_KEYS.contains (lowerStr kv.1)) = some (k, v) := by
    rw [List.find?_append]
    have h1 : pre.find? (fun kv => DATE_KEYS.contains (lowerStr kv.1)) = none :=
      List.find?_eq_none.mpr (fun x hx => by
        intro hc
        rw [hpre x hx] at hc
        exact Bool.false_ne_true hc)
    rw [h1]
    simp only [Option.none_or, List.find?_cons, hk]
  simp only [record_contribs, hfind, hv]

/-- C8 witness: a record whose first date key (`date`) holds an
unparseable value is dropped even though its second date key (`day`) holds
a perfectly valid date and a metric field is present. -/
theorem first_date_key_decides_witness :
    record_contribs 0 false
        [("date", Json.str "garbage"), ("day", Json.str "2024-03-01"),
          ("views", Json.num 5)] = [] ∧
    norm_date 0 (Json.str "2024-03-01") = some "2024-03-01" :=
  ⟨first_date_key_decides 0 false [] "date" (Json.str "garbage")
      [("day", Json.str "2024-03-01"), ("views", Json.num 5)]
      (by intro p hp; exact absurd hp (by simp)) (by decide) (by decide),
   by decide⟩

/-- The field walk of `iter_dicts` is the concatenation of the walks of the
field values, in field order. -/
lemma iterFields_eq_flatMap (gs : List (String × Json)) :
    iterFields gs = gs.flatMap (fun kv => iter_dicts kv.2) := by
  induction gs with
  | nil => simp [iterFields]
  | cons kv t ih => simp [iterFields, ih]

/-- C9: suppressing a record classified as a range total excludes only that
object itself.  For any JSON object, the document's contributions are the
contributions of the object's own record (subject to the suppression check)
followed by the full, independent harvest of every value nested inside it —
so records nested in a suppressed record are still walked, classified,
date-resolved and accumulated exactly as if their parent had not been
suppressed. -/
theorem suppression_skips_only_the_record_itself (tz : Int) (keep skip : Bool)
    (fs : List (String × Json)) :
    harvest_doc tz keep skip (Json.obj fs) =
      process_dict tz keep skip fs ++
        fs.flatMap (fun kv => harvest_doc tz keep skip kv.2) := by
  simp only [harvest_doc, iter_dicts, iterFields_eq_flatMap, List.flatMap_cons,
    List.flatMap_assoc]

/-- C5 counterexample: a document shallow enough for `json.loads` (depth 4,
parse budget 10) but too deep for the tree walker's stack budget (3) makes
the whole run abort with the recursion error instead of skipping that
document: the second, perfectly valid document — which alone would
contribute a row — is never processed. -/
theorem walker_recursion_error_aborts_run :
    run_docs 10 3 0 false true
        [Json.obj [("a", Json.obj [("b", Json.obj [("c", Json.obj [("d", Json.num 1)])])])],
         Json.obj [("date", Json.str "2024-03-01"), ("views", Json.num 5)]] =
      .error () ∧
    run_docs 10 3 0 false true
        [Json.obj [("date", Json.str "2024-03-01"), ("views", Json.num 5)]] =
      .ok [("2024-03-01", "views", 5)] := by
  have h : norm_date 0 (Json.str "2024-03-01") = some "2024-03-01" := by decide
  have e1 : endsWithStr "views" "_cents" = false := by decide
  have e2 : endsWithStr "views" "_micros" = false := by decide
  have e3 : REMAP.find? (fun p => p.1 == "views") = none := by decide
  constructor
  · simp [run_docs, jdepth, jdepthFields, iterDictsB, iterFieldsB]
  · simp [run_docs, jdepth, jdepthFields, iterDictsB, iterFieldsB,
      process_dict, looks_like_range_total, record_contribs, h, field_contribs, coerce_number,
      lowerStr, DATE_KEYS, SKIP_KEYS, CENTS_LIKE, RANGE_HINT_KEYS, e1, e2, e3]

/-- C5 (amended): a recursion error raised while `json.loads` parses a
too-deep document is caught by the per-file `try/except` — that document
alone is skipped and the run continues with the next file; but a recursion
error raised by `iter_dicts` during the record loop is not caught anywhere
in `main`, so it propagates and aborts the entire run. -/
theorem recursion_error_per_stage_fate (parseB walkB : Nat) (tz : Int) (keep skip : Bool)
    (doc : Json) (rest : List Json) :
    (parseB < jdepth doc →
      run_docs parseB walkB tz keep skip (doc :: rest) =
        run_docs parseB walkB tz keep skip rest) ∧
    (jdepth doc ≤ parseB → iterDictsB walkB doc = .error () →
      run_docs parseB walkB tz keep skip (doc :: rest) = .error ()) := by
  constructor
  · intro h
    simp [run_docs, h]
  · intro h1 h2
    simp [run_docs, Nat.not_lt.mpr h1, h2]

/-- C5 witness: a depth-1 document under parse budget 0 is skipped and the
(empty) remainder still runs to completion; the same document under walk
budget 0 aborts the run. -/
theorem recursion_error_per_stage_fate_witness :
    run_docs 0 5 0 false true [Json.obj []] = .ok [] ∧
    run_docs 2 0 0 false true [Json.obj []] = .error () := by
  constructor
  · have h := (recursion_error_per_stage_fate 0 5 0 false true (Json.obj []) []).1
      (by simp [jdepth, jdepthFields])
    rw [h]
    rfl
  · exact (recursion_error_per_stage_fate 2 0 0 false true (Json.obj []) []).2
      (by simp [jdepth, jdepthFields]) (by simp [iterDictsB])

/-! ## Date-normalizer lemmas (towards C1) -/

/-- Decimal digit characters are recognized by `Char.isDigit`. -/
lemma digitChar_isDigit : ∀ k, k < 10 → (Nat.digitChar k).isDigit = true := by decide

/-- Reading a decimal digit character back gives the digit. -/
lemma digitChar_toNat : ∀ k, k < 10 → (Nat.digitChar k).toNat - 48 = k := by decide

/-- Decimal digit characters are not whitespace. -/
lemma digitChar_not_ws : ∀ k, k < 10 → (Nat.digitChar k).isWhitespace = false := by decide

/-- Every month has at most 31 days. -/
lemma daysInMonth_le (y m : Nat) : daysInMonth y m ≤ 31 := by
  unfold daysInMonth
  repeat' split <;> norm_num

/-- `takeDigits 4` consumes exactly a four-digit zero-padded field. -/
lemma takeDigits_pad4 (y : Nat) (rest : List Char) :
    takeDigits 4 (pad4 y ++ rest) =
      ([y / 1000 % 10, y / 100 % 10, y / 10 % 10, y % 10], rest) := by
  have h10 : ∀ a : Nat, a % 10 < 10 := fun a => Nat.mod_lt _ (by norm_num)
  simp [pad4, takeDigits, digitChar_isDigit _ (h10 _), digitChar_toNat _ (h10 _)]

/-- `takeDigits 2` consumes exactly a two-digit zero-padded field. -/
lemma takeDigits_pad2 (m : Nat) (rest : List Char) :
    takeDigits 2 (pad2 m ++ rest) = ([m / 10 % 10, m % 10], rest) := by
  have h10 : ∀ a : Nat, a % 10 < 10 := fun a => Nat.mod_lt _ (by norm_num)
  simp [pad2, takeDigits, digitChar_isDigit _ (h10 _), digitChar_toNat _ (h10 _)]

/-- Parsing a zero-padded four-digit number recovers it. -/
lemma parseNum_pad4 (y : Nat) (hy : y < 10000) (rest : List Char) :
    parseNum 4 (pad4 y ++ rest) = some (y, rest) := by
  rw [parseNum, takeDigits_pad4]
  simp only [digitsVal, List.foldl_cons, List.foldl_nil]
  congr 1
  refine Prod.ext ?_ rfl
  simp only
  omega

/-- Parsing a zero-padded two-digit number recovers it. -/
lemma parseNum_pad2 (m : Nat) (hm : m < 100) (rest : List Char) :
    parseNum 2 (pad2 m ++ rest) = some (m, rest) := by
  rw [parseNum, takeDigits_pad2]
  simp only [digitsVal, List.foldl_cons, List.foldl_nil]
  congr 1
  refine Prod.ext ?_ rfl
  simp only
  omega

/-- The `%Y-%m-%d` scanner recovers the rendered components and leaves the
rest of the input untouched. -/
lemma parseDatePart_pads (y m d : Nat) (hy : y < 10000) (hm : m < 100) (hd : d < 100)
    (rest : List Char) :
    parseDatePart ((pad4 y ++ '-' :: (pad2 m ++ '-' :: pad2 d)) ++ rest) =
      some (y, m, d, rest) := by
  have h1 : (pad4 y ++ '-' :: (pad2 m ++ '-' :: pad2 d)) ++ rest =
      pad4 y ++ ('-' :: (pad2 m ++ ('-' :: (pad2 d ++ rest)))) := by simp
  rw [h1, parseDatePart, parseNum_pad4 y hy]
  simp only [Option.bind_eq_bind, Option.some_bind, expectChar, if_pos rfl, if_true]
  rw [parseNum_pad2 m hm]
  simp only [Option.some_bind, if_pos rfl, if_true]
  rw [parseNum_pad2 d hd]
  simp only [Option.some_bind]

/-- The `%H:%M:%S` scanner recovers the rendered components. -/
lemma parseHMS_pads (h mi s : Nat) (hh : h < 100) (hmi : mi < 100) (hs : s < 100)
    (rest : List Char) :
    parseHMS ((pad2 h ++ ':' :: (pad2 mi ++ ':' :: pad2 s)) ++ rest) =
      some (h, mi, s, rest) := by
  have h1 : (pad2 h ++ ':' :: (pad2 mi ++ ':' :: pad2 s)) ++ rest =
      pad2 h ++ (':' :: (pad2 mi ++ (':' :: (pad2 s ++ rest)))) := by simp
  rw [h1, parseHMS, parseNum_pad2 h hh]
  simp only [Option.bind_eq_bind, Option.some_bind, expectChar, if_pos rfl, if_true]
  rw [parseNum_pad2 mi hmi]
  simp only [Option.some_bind, if_pos rfl, if_true]
  rw [parseNum_pad2 s hs]
  simp only [Option.some_bind]

/-- In-range components pass the `datetime` constructor's date validation. -/
lemma validDate_of_ranges (y m d : Nat) (hy1 : 1 ≤ y) (hy2 : y ≤ 9999) (hm1 : 1 ≤ m)
    (hm2 : m ≤ 12) (hd1 : 1 ≤ d) (hd2 : d ≤ daysInMonth y m) :
    validDate y m d = true := by
  simp [validDate, hy1, hy2, hm1, hm2, hd1, hd2]

/-- In-range components pass the time-of-day validation. -/
lemma validTime_of_ranges (h mi s : Nat) (hh : h ≤ 23) (hmi : mi ≤ 59) (hs : s ≤ 59) :
    validTime h mi s = true := by
  simp [validTime, hh, hmi, hs]

/-- Stripping leaves a string alone when its first and last characters are
not whitespace. -/
lemma pyStrip_eq_self (cs : List Char)
    (h1 : ∀ c, cs.head? = some c → c.isWhitespace = false)
    (h2 : ∀ c, cs.getLast? = some c → c.isWhitespace = false) :
    pyStrip cs = cs := by
  unfold pyStrip
  have e1 : cs.dropWhile Char.isWhitespace = cs := by
    cases cs with
    | nil => rfl
    | cons a t => rw [List.dropWhile_cons, if_neg]; simp [h1 a rfl]
  rw [e1]
  have e2 : cs.reverse.dropWhile Char.isWhitespace = cs.reverse := by
    cases hrev : cs.reverse with
    | nil => rfl
    | cons a t =>
      rw [List.dropWhile_cons, if_neg]
      have hl : cs.getLast? = some a := by
        rw [← List.head?_reverse, hrev]; rfl
      simp [h2 a hl]
  rw [e2, List.reverse_reverse]

/-- All four datetime formats reject a bare `YYYY-MM-DD` string: each one
requires a `T` or space separator after the date part, and the input ends
there. -/
lemma bare_iso_formats_fail (tz : Int) (y m d : Nat) (hy : y < 10000) (hm : m < 100)
    (hd : d < 100) :
    tryDatetimeFormats tz (pad4 y ++ '-' :: (pad2 m ++ '-' :: pad2 d)) = none := by
  have hp : parseDatePart (pad4 y ++ '-' :: (pad2 m ++ '-' :: pad2 d)) =
      some (y, m, d, []) := by
    have h := parseDatePart_pads y m d hy hm hd []
    rwa [List.append_nil] at h
  simp [tryDatetimeFormats, fmtTZ, fmtFracZ, fmtZ, fmtSpace, hp, expectChar]

/-- The bare-date branch: a `YYYY-MM-DD` string is returned verbatim, with
no offset applied, for every offset. -/
lemma norm_date_bare_branch (tz : Int) (y m d : Nat) (hy1 : 1 ≤ y) (hy2 : y ≤ 9999)
    (hm1 : 1 ≤ m) (hm2 : m ≤ 12) (hd1 : 1 ≤ d) (hd2 : d ≤ daysInMonth y m) :
    norm_date tz (Json.str (isoDate y m d)) = some (isoDate y m d) := by
  have hy : y < 10000 := by omega
  have hm : m < 100 := by omega
  have hd : d < 100 := lt_of_le_of_lt hd2 (lt_of_le_of_lt (daysInMonth_le y m) (by norm_num))
  have h10 : ∀ a : Nat, a % 10 < 10 := fun a => Nat.mod_lt _ (by norm_num)
  have htl : (isoDate y m d).toList = pad4 y ++ '-' :: (pad2 m ++ '-' :: pad2 d) := rfl
  have hstrip : pyStrip (pad4 y ++ '-' :: (pad2 m ++ '-' :: pad2 d)) =
      pad4 y ++ '-' :: (pad2 m ++ '-' :: pad2 d) := by
    apply pyStrip_eq_self
    · intro c hc
      simp [pad4] at hc
      rw [← hc]
      exact digitChar_not_ws _ (h10 _)
    · intro c hc
      simp [pad4, pad2] at hc
      rw [← hc]
      exact digitChar_not_ws _ (h10 _)
  have hbare : parseBareDate (pad4 y ++ '-' :: (pad2 m ++ '-' :: pad2 d)) =
      some (y, m, d) := by
    have hp := parseDatePart_pads y m d hy hm hd []
    rw [List.append_nil] at hp
    rw [parseBareDate, hp]
    simp [validDate_of_ranges y m d hy1 hy2 hm1 hm2 hd1 hd2]
  simp only [norm_date, htl, hstrip, strDatePath,
    bare_iso_formats_fail tz y m d hy hm hd, hbare]

/-- The datetime branch: a `YYYY-MM-DDTHH:MM:SSZ` string is parsed, the
offset is added exactly once, and the calendar date of the shifted instant
is returned. -/
lemma norm_date_datetime_branch (tz : Int) (y m d h mi s : Nat)
    (hy1 : 1 ≤ y) (hy2 : y ≤ 9999) (hm1 : 1 ≤ m) (hm2 : m ≤ 12)
    (hd1 : 1 ≤ d) (hd2 : d ≤ daysInMonth y m)
    (hh : h ≤ 23) (hmi : mi ≤ 59) (hs : s ≤ 59)
    (hlo : minDay ≤ shiftedDay tz y m d h mi s)
    (hhi : shiftedDay tz y m d h mi s ≤ maxDay) :
    norm_date tz (Json.str (isoDateTimeZ y m d h mi s)) =
      some (isoOfDay (shiftedDay tz y m d h mi s)) := by
  have hy : y < 10000 := by omega
  have hm : m < 100 := by omega
  have hd : d < 100 := lt_of_le_of_lt hd2 (lt_of_le_of_lt (daysInMonth_le y m) (by norm_num))
  have hh2 : h < 100 := by omega
  have hmi2 : mi < 100 := by omega
  have hs2 : s < 100 := by omega
  have h10 : ∀ a : Nat, a % 10 < 10 := fun a => Nat.mod_lt _ (by norm_num)
  have htl : (isoDateTimeZ y m d h mi s).toList =
      (pad4 y ++ '-' :: (pad2 m ++ '-' :: pad2 d)) ++
        'T' :: ((pad2 h ++ ':' :: (pad2 mi ++ ':' :: pad2 s)) ++ ['Z']) := rfl
  have hstrip : pyStrip ((pad4 y ++ '-' :: (pad2 m ++ '-' :: pad2 d)) ++
      'T' :: ((pad2 h ++ ':' :: (pad2 mi ++ ':' :: pad2 s)) ++ ['Z'])) =
      (pad4 y ++ '-' :: (pad2 m ++ '-' :: pad2 d)) ++
        'T' :: ((pad2 h ++ ':' :: (pad2 mi ++ ':' :: pad2 s)) ++ ['Z']) := by
    apply pyStrip_eq_self
    · intro c hc
      simp [pad4] at hc
      rw [← hc]
      exact digitChar_not_ws _ (h10 _)
    · intro c hc
      simp [pad4, pad2] at hc
      rw [← hc]
      decide
  have hfmt : fmtTZ tz ((pad4 y ++ '-' :: (pad2 m ++ '-' :: pad2 d)) ++
      'T' :: ((pad2 h ++ ':' :: (pad2 mi ++ ':' :: pad2 s)) ++ ['Z'])) =
      some (isoOfDay (shiftedDay tz y m d h mi s)) := by
    rw [fmtTZ, parseDatePart_pads y m d hy hm hd]
    simp only [Option.bind_eq_bind, Option.some_bind, expectChar, if_pos rfl, if_true]
    rw [parseHMS_pads h mi s hh2 hmi2 hs2 ['Z']]
    simp only [Option.some_bind]
    rw [show parseTZ ['Z'] = some [] from rfl]
    simp only [Option.some_bind, List.isEmpty_nil, if_true]
    rw [dtResult]
    rw [validDate_of_ranges y m d hy1 hy2 hm1 hm2 hd1 hd2,
      validTime_of_ranges h mi s hh hmi hs]
    simp only [Bool.and_self, if_true]
    rw [if_pos ⟨hlo, hhi⟩]
  simp only [norm_date, htl, hstrip, strDatePath, tryDatetimeFormats, hfmt, Option.orElse]

/-- The numeric branch: an epoch-seconds timestamp is shifted by the offset
exactly once before its calendar date is taken. -/
lemma norm_date_epoch_branch (tz ts : Int) (h0 : ts ≤ 1000000000000)
    (h1 : minDay ≤ Int.fdiv ts 86400) (h2 : Int.fdiv ts 86400 ≤ maxDay)
    (h3 : minDay ≤ Int.fdiv (ts + tz * 3600) 86400)
    (h4 : Int.fdiv (ts + tz * 3600) 86400 ≤ maxDay) :
    norm_date tz (Json.num (ts : Rat)) =
      some (isoOfDay (Int.fdiv (ts + tz * 3600) 86400)) := by
  have htr : ratTrunc ((ts : Rat)) = ts := by simp [ratTrunc]
  have hgt : ¬ ts > 1000000000000 := by omega
  simp only [norm_date, htr, epochPath]
  rw [if_neg hgt, if_pos ⟨h1, h2, h3, h4⟩]

/-- C1: the timezone offset is applied exactly once and only to values that
carry a time of day.  A bare `YYYY-MM-DD` string is returned verbatim for
EVERY offset (never shifted); a `YYYY-MM-DDTHH:MM:SSZ` datetime string has
the offset in hours added exactly once to the parsed wall clock before the
calendar date is taken; an epoch-seconds timestamp likewise has the offset
added exactly once to the instant; and on the spec's example the shift
crosses a day boundary: `"2024-03-05T23:30:00Z"` at offset `+2` normalizes
to `"2024-03-06"`. -/
theorem norm_date_offset_applied_once_iff_time_present (tz : Int) (y m d h mi s : Nat)
    (hy1 : 1 ≤ y) (hy2 : y ≤ 9999) (hm1 : 1 ≤ m) (hm2 : m ≤ 12)
    (hd1 : 1 ≤ d) (hd2 : d ≤ daysInMonth y m)
    (hh : h ≤ 23) (hmi : mi ≤ 59) (hs : s ≤ 59) :
    norm_date tz (Json.str (isoDate y m d)) = some (isoDate y m d) ∧
    (minDay ≤ shiftedDay tz y m d h mi s → shiftedDay tz y m d h mi s ≤ maxDay →
      norm_date tz (Json.str (isoDateTimeZ y m d h mi s)) =
        some (isoOfDay (shiftedDay tz y m d h mi s))) ∧
    (∀ ts : Int, ts ≤ 1000000000000 →
      minDay ≤ Int.fdiv ts 86400 → Int.fdiv ts 86400 ≤ maxDay →
      minDay ≤ Int.fdiv (ts + tz * 3600) 86400 →
      Int.fdiv (ts + tz * 3600) 86400 ≤ maxDay →
      norm_date tz (Json.num (ts : Rat)) =
        some (isoOfDay (Int.fdiv (ts + tz * 3600) 86400))) ∧
    norm_date 2 (Json.str "2024-03-05T23:30:00Z") = some "2024-03-06" :=
  ⟨norm_date_bare_branch tz y m d hy1 hy2 hm1 hm2 hd1 hd2,
   fun hlo hhi => norm_date_datetime_branch tz y m d h mi s hy1 hy2 hm1 hm2 hd1 hd2
     hh hmi hs hlo hhi,
   fun ts h0 h1 h2 h3 h4 => norm_date_epoch_branch tz ts h0 h1 h2 h3 h4,
   by decide⟩

/-- C1 witness: the spec's own instants — the bare date `2024-03-05` is not
shifted by offset `+2`, while the datetime and the corresponding epoch
timestamp are shifted across midnight to `2024-03-06`. -/
theorem norm_date_offset_applied_once_iff_time_present_witness :
    norm_date 2 (Json.str (isoDate 2024 3 5)) = some (isoDate 2024 3 5) ∧
    norm_date 2 (Json.str (isoDateTimeZ 2024 3 5 23 30 0)) =
      some (isoOfDay (shiftedDay 2 2024 3 5 23 30 0)) ∧
    norm_date 2 (Json.num ((1709681400 : Int) : Rat)) =
      some (isoOfDay (Int.fdiv ((1709681400 : Int) + 2 * 3600) 86400)) ∧
    isoOfDay (shiftedDay 2 2024 3 5 23 30 0) = "2024-03-06" ∧
    isoDate 2024 3 5 = "2024-03-05" := by
  have h := norm_date_offset_applied_once_iff_time_present 2 2024 3 5 23 30 0
    (by norm_num) (by norm_num) (by norm_num) (by norm_num) (by norm_num)
    (by decide) (by norm_num) (by norm_num) (by norm_num)
  exact ⟨h.1, h.2.1 (by decide) (by decide),
    h.2.2.1 1709681400 (by norm_num) (by decide) (by decide) (by decide) (by decide),
    by decide, by decide⟩

end Harvest


